import Mathlib

/-!
Verification of the sentiment/emotion batch-analysis core of this
repository (`sentiment_core.py` and the CSV pipeline of
`sentiment_gui.py`).

The two external lexicon engines (the polarity scorer returning a
compound score, and the emotion lexicon returning per-category raw
counts) are black boxes: they are modelled as function parameters.  Row
texts stay `String`; emotion category names are modelled as `List Char`
(Python strings) so that the comma-join / comma-split performed by the
batch aggregator can be embedded faithfully.
-/

namespace Sentiment

/-- Emotion category names, as character lists (Python strings). -/
abbrev Emotion := List Char

/-- `SENTIMENT_THRESHOLD_POS = 0.05` from `sentiment_core.py`. -/
def SENTIMENT_THRESHOLD_POS : ℚ := 5 / 100

/-- `SENTIMENT_THRESHOLD_NEG = -0.05` from `sentiment_core.py`. -/
def SENTIMENT_THRESHOLD_NEG : ℚ := -(5 / 100)

/-- `SentimentAnalyzer.classify_sentiment`: compute the engine's compound
score for the text and map it to a label through the fixed thresholds.
`sia` is the external polarity engine (`self._sia.polarity_scores(text)["compound"]`). -/
def classify_sentiment (sia : String → ℚ) (text : String) : String :=
  if SENTIMENT_THRESHOLD_POS ≤ sia text then "positive"
  else if sia text ≤ SENTIMENT_THRESHOLD_NEG then "negative"
  else "neutral"

/-- `SentimentAnalyzer.detect_emotions`:
`[e for e, v in NRCLex(text).raw_emotion_scores.items() if v > 0]`.
`nrc` is the external emotion-lexicon engine; it returns the
`raw_emotion_scores` items in their native dict order. -/
def detect_emotions (nrc : String → List (Emotion × Nat)) (text : String) : List Emotion :=
  ((nrc text).filter (fun p => decide (0 < p.2))).map Prod.fst

/-- Python `",".join(l)` on character-list strings. -/
def joinComma : List Emotion → List Char
  | [] => []
  | [x] => x
  | x :: y :: xs => x ++ ',' :: joinComma (y :: xs)

/-- Python `s.split(",")` (also what pandas `.str.split(",")` applies per
row): always returns at least one token; the empty string yields `[""]`. -/
def splitComma : List Char → List Emotion
  | [] => [[]]
  | c :: cs =>
    if c = ',' then [] :: splitComma cs
    else
      match splitComma cs with
      | [] => [[c]]
      | t :: ts => (c :: t) :: ts

/-- Distinct values of a list in first-occurrence order (the order the
pandas hash table records values in). -/
def distincts {α : Type} [DecidableEq α] : List α → List α
  | [] => []
  | a :: l => a :: (distincts l).filter (fun b => decide (b ≠ a))

/-- Ordering on counted pairs: larger count first (the order
`Series.value_counts()` returns). -/
def countGE {α : Type} (p q : α × Nat) : Prop := q.2 ≤ p.2

/-- Ordering on labelled counts: ascending key (the order
`Series.sort_index()` returns). -/
def keyLE (p q : String × Nat) : Prop := p.1 ≤ q.1

instance {α : Type} : DecidableRel (@countGE α) :=
  fun p q => inferInstanceAs (Decidable (q.2 ≤ p.2))

instance {α : Type} : IsTotal (α × Nat) countGE :=
  ⟨fun p q => le_total q.2 p.2⟩

instance {α : Type} : IsTrans (α × Nat) countGE :=
  ⟨fun _ _ _ h1 h2 => le_trans h2 h1⟩

instance : DecidableRel keyLE :=
  fun p q => inferInstanceAs (Decidable (p.1 ≤ q.1))

instance : IsTotal (String × Nat) keyLE :=
  ⟨fun p q => le_total p.1 q.1⟩

instance : IsTrans (String × Nat) keyLE :=
  ⟨fun _ _ _ h1 h2 => le_trans h1 h2⟩

/-- Occurrences of `a` in `l` (counting with decidable equality). -/
def countOcc {α : Type} [DecidableEq α] (a : α) (l : List α) : Nat :=
  @List.count α instBEqOfDecidableEq a l

/-- pandas `Series.value_counts()`: the distinct values paired with their
occurrence counts, sorted by descending count (ties keep first-occurrence
order through a stable sort). -/
def valueCounts {α : Type} [DecidableEq α] (l : List α) : List (α × Nat) :=
  List.insertionSort countGE ((distincts l).map (fun a => (a, countOcc a l)))

/-- pandas `Series.sort_index()` as used on the sentiment counts: sort
the labelled counts by ascending label. -/
def sortIndex (l : List (String × Nat)) : List (String × Nat) :=
  List.insertionSort keyLE l

/-- `SentimentAnalyzer.analyse_dataframe`: per row classify the text and
join the detected emotions with commas; return
`(value_counts(sentiment).sort_index(), value_counts(explode(split(emotions, ","))))`.
The dataframe is modelled by its designated text column (a list of row
texts): all other columns are passed through untouched and cannot affect
the two returned distributions. -/
def analyse_dataframe (sia : String → ℚ) (nrc : String → List (Emotion × Nat))
    (df : List String) : List (String × Nat) × List (Emotion × Nat) :=
  let sentiments := df.map (classify_sentiment sia)
  let emotionsCol := df.map (fun t => joinComma (detect_emotions nrc t))
  let tokens := (emotionsCol.map splitComma).flatten
  (sortIndex (valueCounts sentiments), valueCounts tokens)

/-- The accepted text-column names in `SentimentApp._on_analyse_csv`. -/
def TEXT_COL_NAMES : List String := ["text", "review", "comment"]

/-- Python `str.lower` on a column name, character by character
(`Char.toLower` lowercases the ASCII range, which covers the accepted
ASCII names the result is compared against). -/
def strLower (s : String) : String := String.mk (s.data.map Char.toLower)

/-- `possible_cols = [c for c in df.columns if c.lower() in {"text", "review", "comment"}]`. -/
def possibleCols (cols : List String) : List String :=
  cols.filter (fun c => decide (strLower c ∈ TEXT_COL_NAMES))

/-- `text_col = possible_cols[0]`, or `none` when the CSV has no usable
text column (the error branch of `_on_analyse_csv`). -/
def detectTextColumn (cols : List String) : Option String :=
  (possibleCols cols).head?

/-- Modelled from the spec: column detection "prefers `text` over
`review` over `comment` when multiple are present", matching
case-insensitively.  Stated only to compare with `detectTextColumn`,
the selection the code performs. -/
def specPreferredColumn (cols : List String) : Option String :=
  match cols.find? (fun c => decide (strLower c = "text")) with
  | some c => some c
  | none =>
    match cols.find? (fun c => decide (strLower c = "review")) with
    | some c => some c
    | none => cols.find? (fun c => decide (strLower c = "comment"))

/-- Index of the last `'.'` in a character list, if any. -/
def lastDotIdx : List Char → Option Nat
  | [] => none
  | c :: cs =>
    match lastDotIdx cs with
    | some i => some (i + 1)
    | none => if c = '.' then some 0 else none

/-- Python `PurePath.suffix` on a file name: the extension from the last
dot, empty when there is no dot, the only dot leads the name, or the
name ends in the dot. -/
def pathSuffix (name : String) : String :=
  match lastDotIdx name.data with
  | none => ""
  | some i =>
    if 0 < i ∧ i + 1 < name.data.length then String.mk (name.data.drop i) else ""

/-- Python `PurePath.with_suffix` on a bare file name (no directory
part), as called by `_on_analyse_csv`: raises `ValueError` unless the
new suffix is empty or starts with a dot and is not just a dot. -/
def withSuffix (name suffix : String) : Except String String :=
  if suffix.data.contains '/' then Except.error "Invalid suffix"
  else if (decide (suffix ≠ "") && !(decide (suffix.data.head? = some '.')))
      || decide (suffix = ".") then
    Except.error "Invalid suffix"
  else if name = "" then Except.error "empty name"
  else if pathSuffix name = "" then Except.ok (name ++ suffix)
  else
    Except.ok
      (String.mk (name.data.take (name.data.length - (pathSuffix name).data.length)) ++ suffix)

/-- A concrete emotion engine for evaluation: the text `"joyful"` has one
detected emotion and every other text has none. -/
def nrcDemo : String → List (Emotion × Nat) :=
  fun t => if t = "joyful" then [(['j', 'o', 'y'], 2)] else []

/-! ## Counting lemmas for the frequency distributions -/

theorem mem_distincts {α : Type} [DecidableEq α] {l : List α} {a : α} :
    a ∈ distincts l ↔ a ∈ l := by
  induction l with
  | nil => simp [distincts]
  | cons b l ih =>
    simp only [distincts, List.mem_cons, List.mem_filter, decide_eq_true_eq]
    constructor
    · rintro (rfl | ⟨hmem, _⟩)
      · exact Or.inl rfl
      · exact Or.inr (ih.1 hmem)
    · rintro (rfl | hmem)
      · exact Or.inl rfl
      · by_cases hab : a = b
        · exact Or.inl hab
        · exact Or.inr ⟨ih.2 hmem, hab⟩

theorem distincts_nodup {α : Type} [DecidableEq α] (l : List α) : (distincts l).Nodup := by
  induction l with
  | nil => simp [distincts]
  | cons b l ih =>
    rw [distincts, List.nodup_cons]
    refine ⟨fun hmem => ?_, ih.filter _⟩
    rcases List.mem_filter.1 hmem with ⟨_, hne⟩
    exact (of_decide_eq_true hne) rfl

/-- The counts recorded by `valueCounts` sum to the length of the list. -/
theorem sum_valueCounts {α : Type} [DecidableEq α] (l : List α) :
    ((valueCounts l).map Prod.snd).sum = l.length := by
  have hperm : List.Perm (valueCounts l) ((distincts l).map (fun a => (a, countOcc a l))) :=
    List.perm_insertionSort _ _
  have h1 : ((valueCounts l).map Prod.snd).sum
      = (((distincts l).map (fun a => (a, countOcc a l))).map Prod.snd).sum :=
    (hperm.map Prod.snd).sum_eq
  have h2 : ((distincts l).map (fun a => (a, countOcc a l))).map Prod.snd
      = (distincts l).map (fun a => countOcc a l) := by
    simp [List.map_map, Function.comp]
  have hperm2 : List.Perm (distincts l) l.dedup := by
    refine (List.perm_ext_iff_of_nodup (distincts_nodup l) l.nodup_dedup).2 fun a => ?_
    rw [mem_distincts, List.mem_dedup]
  have h3 : ((distincts l).map (fun a => countOcc a l)).sum
      = (l.dedup.map (fun a => countOcc a l)).sum := (hperm2.map _).sum_eq
  rw [h1, h2, h3]
  simpa [countOcc] using List.sum_map_count_dedup_eq_length l

/-- Every value of the list appears in `valueCounts` with its exact count. -/
theorem mem_valueCounts {α : Type} [DecidableEq α] {l : List α} {a : α} (h : a ∈ l) :
    (a, countOcc a l) ∈ valueCounts l := by
  have hmem : (a, countOcc a l) ∈ (distincts l).map (fun b => (b, countOcc b l)) :=
    List.mem_map.2 ⟨a, mem_distincts.2 h, rfl⟩
  exact ((List.perm_insertionSort _ _).mem_iff).2 hmem

theorem sum_indicator_eq_length_filter {α : Type} (p : α → Bool) (l : List α) :
    (l.map (fun a => if p a then 1 else 0)).sum = (l.filter p).length := by
  induction l with
  | nil => rfl
  | cons a t ih => by_cases h : p a <;> simp [List.filter_cons, h, ih, Nat.add_comm]

/-! ## C1: classification thresholds -/

/-- **C1.** `classify_sentiment` returns `"positive"` whenever the engine's
compound score is at least `0.05` (the boundary score `0.05` included),
`"negative"` whenever the score is at most `-0.05` (boundary included),
`"neutral"` for every score strictly between the thresholds, and for every
score exactly one of the three labels is returned. -/
theorem classify_sentiment_thresholds (sia : String → ℚ) (t : String) :
    (SENTIMENT_THRESHOLD_POS ≤ sia t → classify_sentiment sia t = "positive") ∧
    (sia t ≤ SENTIMENT_THRESHOLD_NEG → classify_sentiment sia t = "negative") ∧
    (SENTIMENT_THRESHOLD_NEG < sia t → sia t < SENTIMENT_THRESHOLD_POS →
      classify_sentiment sia t = "neutral") ∧
    (∃! lbl, lbl ∈ (["negative", "neutral", "positive"] : List String) ∧
      classify_sentiment sia t = lbl) := by
  have hlt : SENTIMENT_THRESHOLD_NEG < SENTIMENT_THRESHOLD_POS := by
    norm_num [SENTIMENT_THRESHOLD_NEG, SENTIMENT_THRESHOLD_POS]
  refine ⟨fun h => ?_, fun h => ?_, fun h1 h2 => ?_, ?_⟩
  · simp [classify_sentiment, if_pos h]
  · have hnp : ¬ SENTIMENT_THRESHOLD_POS ≤ sia t := not_le.2 (lt_of_le_of_lt h hlt)
    simp [classify_sentiment, if_neg hnp, if_pos h]
  · have hnp : ¬ SENTIMENT_THRESHOLD_POS ≤ sia t := not_le.2 h2
    have hnn : ¬ sia t ≤ SENTIMENT_THRESHOLD_NEG := not_le.2 h1
    simp [classify_sentiment, if_neg hnp, if_neg hnn]
  · refine ⟨classify_sentiment sia t, ⟨?_, rfl⟩, fun y hy => hy.2.symm⟩
    unfold classify_sentiment
    split_ifs <;> decide

/-- Witness for C1 at the boundary score `0.05`. -/
theorem classify_sentiment_thresholds_witness :
    SENTIMENT_THRESHOLD_POS ≤ (fun _ : String => (5 : ℚ) / 100) "t" ∧
    classify_sentiment (fun _ => (5 : ℚ) / 100) "t" = "positive" :=
  ⟨by norm_num [SENTIMENT_THRESHOLD_POS],
   (classify_sentiment_thresholds (fun _ => (5 : ℚ) / 100) "t").1
     (by norm_num [SENTIMENT_THRESHOLD_POS])⟩

/-! ## C7: empty dataset -/

/-- **C7.** On a dataset with zero rows `analyse_dataframe` returns normally
and both the sentiment and the emotion frequency distributions are empty. -/
theorem analyse_dataframe_empty (sia : String → ℚ)
    (nrc : String → List (Emotion × Nat)) :
    analyse_dataframe sia nrc [] = ([], []) := rfl

/-! ## C8: determinism -/

/-- **C8.** `analyse_dataframe` is deterministic: two invocations on the same
dataset and text column whose engines return the same scores yield
identical sentiment and emotion frequency distributions. -/
theorem analyse_dataframe_deterministic (sia₁ sia₂ : String → ℚ)
    (nrc₁ nrc₂ : String → List (Emotion × Nat)) (df : List String)
    (hs : ∀ t, sia₁ t = sia₂ t) (hn : ∀ t, nrc₁ t = nrc₂ t) :
    analyse_dataframe sia₁ nrc₁ df = analyse_dataframe sia₂ nrc₂ df := by
  have h1 : sia₁ = sia₂ := funext hs
  have h2 : nrc₁ = nrc₂ := funext hn
  rw [h1, h2]

/-- Witness for C8 on a one-row dataset. -/
theorem analyse_dataframe_deterministic_witness :
    (∀ t : String, (fun _ : String => (0 : ℚ)) t = (fun _ : String => (0 : ℚ)) t) ∧
    analyse_dataframe (fun _ => (0 : ℚ)) (fun _ => []) ["a"]
      = analyse_dataframe (fun _ => (0 : ℚ)) (fun _ => []) ["a"] :=
  ⟨fun _ => rfl,
   analyse_dataframe_deterministic _ _ _ _ ["a"] (fun _ => rfl) (fun _ => rfl)⟩

/-! ## C6: emotion detection -/

/-- **C6.** `detect_emotions` returns exactly the categories whose raw score
from the lexicon engine is strictly positive, in the engine's native
enumeration order (its result is a sublist of the engine's key sequence),
without duplicates whenever the engine's keys are distinct, and it returns
the empty sequence when the engine reports no matches. -/
theorem detect_emotions_spec (nrc : String → List (Emotion × Nat)) (t : String)
    (hnd : ((nrc t).map Prod.fst).Nodup) :
    (∀ e : Emotion, e ∈ detect_emotions nrc t ↔ ∃ v, (e, v) ∈ nrc t ∧ 0 < v) ∧
    List.Sublist (detect_emotions nrc t) ((nrc t).map Prod.fst) ∧
    (detect_emotions nrc t).Nodup ∧
    (nrc t = [] → detect_emotions nrc t = []) := by
  have hsub : List.Sublist (detect_emotions nrc t) ((nrc t).map Prod.fst) := by
    simpa [detect_emotions] using (List.filter_sublist (nrc t)).map Prod.fst
  refine ⟨fun e => ?_, hsub, hnd.sublist hsub, fun h => by simp [detect_emotions, h]⟩
  simp only [detect_emotions, List.mem_map, List.mem_filter, decide_eq_true_eq]
  constructor
  · rintro ⟨⟨a, v⟩, ⟨hmem, hv⟩, rfl⟩
    exact ⟨v, hmem, hv⟩
  · rintro ⟨v, hmem, hv⟩
    exact ⟨(e, v), ⟨hmem, hv⟩, rfl⟩

/-- Witness for C6 on an engine with one positive and one zero score. -/
theorem detect_emotions_spec_witness :
    (((fun _ : String => [(['j'], 2), (['f'], 0)]) "t").map Prod.fst).Nodup ∧
    (detect_emotions (fun _ : String => [(['j'], 2), (['f'], 0)]) "t").Nodup :=
  ⟨by decide,
   (detect_emotions_spec (fun _ => [(['j'], 2), (['f'], 0)]) "t" (by decide)).2.2.1⟩

/-! ## C4: text-column detection -/

/-- **C4 counterexample.** With header `["comment", "text"]` both names
match, yet the code selects `"comment"` — the first matching column in
column order — while the claimed preference of `text` over `review` over
`comment` would select `"text"`. -/
theorem detectTextColumn_counterexample :
    detectTextColumn ["comment", "text"] = some "comment" ∧
    specPreferredColumn ["comment", "text"] = some "text" ∧
    detectTextColumn ["comment", "text"] ≠ specPreferredColumn ["comment", "text"] := by
  refine ⟨by decide, by decide, by decide⟩

/-- **C4 (amended).** Column detection is case-insensitive on the set
`{text, review, comment}` and selects the first matching column in column
order, with no preference among the three names. -/
theorem detectTextColumn_first_match (cols : List String)
    (h : ∃ c ∈ cols, strLower c ∈ TEXT_COL_NAMES) :
    ∃ pre c post, cols = pre ++ c :: post ∧
      detectTextColumn cols = some c ∧
      strLower c ∈ TEXT_COL_NAMES ∧
      ∀ d ∈ pre, strLower d ∉ TEXT_COL_NAMES := by
  induction cols with
  | nil => simp at h
  | cons a l ih =>
    by_cases ha : strLower a ∈ TEXT_COL_NAMES
    · exact ⟨[], a, l, rfl,
        by simp [detectTextColumn, possibleCols, List.filter_cons, ha], ha, by simp⟩
    · obtain ⟨c, hcmem, hcmatch⟩ := h
      have hcl : c ∈ l := by
        rcases List.mem_cons.1 hcmem with rfl | hcl
        · exact absurd hcmatch ha
        · exact hcl
      obtain ⟨pre, c₁, post, hcols, hdet, hm, hpre⟩ := ih ⟨c, hcl, hcmatch⟩
      refine ⟨a :: pre, c₁, post, by rw [hcols]; rfl, ?_, hm, ?_⟩
      · simpa [detectTextColumn, possibleCols, List.filter_cons, ha] using hdet
      · intro d hd
        rcases List.mem_cons.1 hd with rfl | hdpre
        · exact ha
        · exact hpre d hdpre

/-- Witness for C4 on the mixed-case header `["id", "REVIEW", "Text"]`:
the first match, `"REVIEW"`, is selected case-insensitively. -/
theorem detectTextColumn_first_match_witness :
    (∃ c ∈ (["id", "REVIEW", "Text"] : List String),
      strLower c ∈ TEXT_COL_NAMES) ∧
    (∃ pre c post, (["id", "REVIEW", "Text"] : List String) = pre ++ c :: post ∧
      detectTextColumn ["id", "REVIEW", "Text"] = some c ∧
      strLower c ∈ TEXT_COL_NAMES ∧
      ∀ d ∈ pre, strLower d ∉ TEXT_COL_NAMES) :=
  ⟨by decide, detectTextColumn_first_match ["id", "REVIEW", "Text"] (by decide)⟩

/-! ## C5: plot file naming -/

/-- **C5 (code behaviour at the failing input).** The batch pipeline derives
its plot file names by `file_path.with_suffix("_sentiment.png")` and
`file_path.with_suffix("_emotions.png")`; since neither suffix starts with
a dot, Python's `with_suffix` raises `ValueError`, so no image file is
ever written by a batch run. -/
theorem withSuffix_plot_names_error :
    withSuffix "data.csv" "_sentiment.png" = Except.error "Invalid suffix" ∧
    withSuffix "data.csv" "_emotions.png" = Except.error "Invalid suffix" := by
  constructor <;> rfl

/-! ## C3: sentiment counts sum to the row count -/

/-- **C3.** `analyse_dataframe` assigns each row exactly one sentiment label
(one of the three fixed labels per row), and the counts of the returned
sentiment frequency sum to exactly the number of rows. -/
theorem sentiment_counts_sum (sia : String → ℚ) (nrc : String → List (Emotion × Nat))
    (df : List String) :
    ((analyse_dataframe sia nrc df).1.map Prod.snd).sum = df.length ∧
    ∀ t ∈ df, classify_sentiment sia t ∈ (["negative", "neutral", "positive"] : List String) := by
  constructor
  · show ((sortIndex (valueCounts (df.map (classify_sentiment sia)))).map Prod.snd).sum
      = df.length
    have hperm : List.Perm (sortIndex (valueCounts (df.map (classify_sentiment sia))))
        (valueCounts (df.map (classify_sentiment sia))) := List.perm_insertionSort _ _
    rw [(hperm.map Prod.snd).sum_eq, sum_valueCounts, List.length_map]
  · intro t _
    unfold classify_sentiment
    split_ifs <;> decide

/-- Witness for C3 on a concrete two-row dataset. -/
theorem sentiment_counts_sum_witness :
    ((analyse_dataframe (fun _ => 0) (fun _ => []) ["a", "b"]).1.map Prod.snd).sum
      = (["a", "b"] : List String).length :=
  (sentiment_counts_sum (fun _ => 0) (fun _ => []) ["a", "b"]).1

/-! ## C9: iteration order of the two distributions -/

/-- **C9.** The sentiment frequency returned by `analyse_dataframe` is
ordered by ascending (lexicographic) label, and the emotion frequency is
ordered by descending count. -/
theorem analyse_dataframe_ordered (sia : String → ℚ)
    (nrc : String → List (Emotion × Nat)) (df : List String) :
    List.Sorted keyLE (analyse_dataframe sia nrc df).1 ∧
    List.Sorted countGE (analyse_dataframe sia nrc df).2 :=
  ⟨List.sorted_insertionSort keyLE _, List.sorted_insertionSort countGE _⟩

/-! ## Splitting the comma-joined emotion strings -/

/-- Splitting a comma-free token gives back just that token. -/
theorem splitComma_no_comma (x : List Char) (hx : ',' ∉ x) : splitComma x = [x] := by
  induction x with
  | nil => rfl
  | cons c cs ih =>
    have hc : ¬ c = ',' := fun h => hx (h ▸ List.mem_cons_self c cs)
    have hcs : ',' ∉ cs := fun h => hx (List.mem_cons_of_mem c h)
    simp [splitComma, if_neg hc, ih hcs]

/-- Splitting a comma-free token, a comma, and a remainder. -/
theorem splitComma_append (x s : List Char) (hx : ',' ∉ x) :
    splitComma (x ++ ',' :: s) = x :: splitComma s := by
  induction x with
  | nil => simp [splitComma]
  | cons c cs ih =>
    have hc : ¬ c = ',' := fun h => hx (h ▸ List.mem_cons_self c cs)
    have hcs : ',' ∉ cs := fun h => hx (List.mem_cons_of_mem c h)
    simp [splitComma, if_neg hc, ih hcs]

/-- `",".join` then `.split(",")` restores a nonempty list of comma-free
tokens. -/
theorem splitComma_joinComma : ∀ (l : List Emotion), l ≠ [] →
    (∀ x ∈ l, ',' ∉ x) → splitComma (joinComma l) = l
  | [], h, _ => absurd rfl h
  | [x], _, hx => splitComma_no_comma x (hx x (List.mem_cons_self x []))
  | x :: y :: ys, _, hx => by
    have h1 : splitComma (joinComma (x :: y :: ys))
        = x :: splitComma (joinComma (y :: ys)) := by
      show splitComma (x ++ ',' :: joinComma (y :: ys)) = _
      exact splitComma_append _ _ (hx x (List.mem_cons_self _ _))
    rw [h1, splitComma_joinComma (y :: ys) (by simp)
      (fun z hz => hx z (List.mem_cons_of_mem x hz))]

/-- A row's exploded token list: its detected emotions when there is at
least one, and the single empty-string token otherwise. -/
theorem row_tokens_eq (nrc : String → List (Emotion × Nat)) (t : String)
    (hname : ∀ p ∈ nrc t, p.1 ≠ [] ∧ ',' ∉ p.1) :
    splitComma (joinComma (detect_emotions nrc t)) =
      if detect_emotions nrc t = [] then [[]] else detect_emotions nrc t := by
  by_cases h : detect_emotions nrc t = []
  · rw [h, if_pos rfl]; rfl
  · rw [if_neg h]
    refine splitComma_joinComma _ h fun x hx => ?_
    rcases List.mem_map.1 hx with ⟨p, hp, rfl⟩
    exact (hname p (List.mem_of_mem_filter hp)).2

theorem sum_map_add_nat {α : Type} (l : List α) (f g : α → Nat) :
    (l.map (fun a => f a + g a)).sum = (l.map f).sum + (l.map g).sum := by
  induction l with
  | nil => rfl
  | cons a t ih => simp [ih]; omega

/-- The exploded token list of a dataframe, before counting. -/
theorem analyse_tokens_eq (sia : String → ℚ) (nrc : String → List (Emotion × Nat))
    (df : List String) :
    (analyse_dataframe sia nrc df).2
      = valueCounts
          ((df.map (fun t => splitComma (joinComma (detect_emotions nrc t)))).flatten) := by
  show valueCounts (((df.map fun t => joinComma (detect_emotions nrc t)).map splitComma).flatten)
      = _
  rw [List.map_map]
  rfl

theorem countOcc_append {α : Type} [DecidableEq α] (a : α) (x y : List α) :
    countOcc a (x ++ y) = countOcc a x + countOcc a y := by
  simp [countOcc, List.count_append]

theorem countOcc_eq_zero {α : Type} [DecidableEq α] {a : α} {l : List α} (h : a ∉ l) :
    countOcc a l = 0 := by
  unfold countOcc
  rw [List.count_eq_zero]
  exact h

/-- Rows with no detected emotions each contribute exactly one
empty-string token to the exploded token list. -/
theorem count_empty_tokens (nrc : String → List (Emotion × Nat)) (df : List String)
    (hname : ∀ t ∈ df, ∀ p ∈ nrc t, p.1 ≠ [] ∧ ',' ∉ p.1) :
    countOcc ([] : Emotion)
        ((df.map (fun t => splitComma (joinComma (detect_emotions nrc t)))).flatten)
      = (df.filter (fun t => (detect_emotions nrc t).isEmpty)).length := by
  induction df with
  | nil => rfl
  | cons t ts ih =>
    have hn_t := hname t (List.mem_cons_self t ts)
    have hn_ts : ∀ u ∈ ts, ∀ p ∈ nrc u, p.1 ≠ [] ∧ ',' ∉ p.1 :=
      fun u hu => hname u (List.mem_cons_of_mem t hu)
    rw [List.map_cons, List.flatten_cons, countOcc_append, ih hn_ts, List.filter_cons,
      row_tokens_eq nrc t hn_t]
    by_cases hd : detect_emotions nrc t = []
    · have h1 : countOcc ([] : Emotion) [[]] = 1 := rfl
      have h2 : (detect_emotions nrc t).isEmpty = true := by rw [hd]; rfl
      rw [if_pos hd, h1, if_pos h2, List.length_cons]
      omega
    · have hzero : countOcc ([] : Emotion) (detect_emotions nrc t) = 0 := by
        refine countOcc_eq_zero fun hmem => ?_
        rcases List.mem_map.1 hmem with ⟨p, hp, hfst⟩
        exact (hn_t p (List.mem_of_mem_filter hp)).1 hfst
      have h2 : ¬ ((detect_emotions nrc t).isEmpty = true) := by
        simp [List.isEmpty_iff, hd]
      rw [if_neg hd, hzero, if_neg h2, Nat.zero_add]

/-! ## C2: emotion counts and the empty token -/

/-- **C2 counterexample.** On a one-row dataset whose row has no detected
emotions, the emotion counts sum to `1` — the empty-string token produced
by splitting the empty joined string is counted — while the total number
of non-empty per-row emotion tags is `0`. -/
theorem emotion_counts_sum_counterexample :
    ¬ (((analyse_dataframe (fun _ => 0) (fun _ => []) ["row"]).2.map Prod.snd).sum
        = ((["row"] : List String).map
            (fun t => detect_emotions (fun _ => []) t)).flatten.length) := by
  decide

/-- **C2 (amended).** The emotion frequency is computed by splitting each
row's comma-joined emotion string into tokens; a row with zero detected
emotions contributes one empty-string token (not nothing), so the counts
sum to the total number of non-empty per-row emotion tags plus the number
of rows with zero detected emotions. -/
theorem emotion_counts_sum (sia : String → ℚ) (nrc : String → List (Emotion × Nat))
    (df : List String)
    (hname : ∀ t ∈ df, ∀ p ∈ nrc t, p.1 ≠ [] ∧ ',' ∉ p.1) :
    ((analyse_dataframe sia nrc df).2.map Prod.snd).sum
      = (df.map (fun t => detect_emotions nrc t)).flatten.length
        + (df.filter (fun t => (detect_emotions nrc t).isEmpty)).length := by
  rw [analyse_tokens_eq, sum_valueCounts, List.length_flatten, List.map_map]
  have hcong : df.map (List.length ∘ fun t => splitComma (joinComma (detect_emotions nrc t)))
      = df.map (fun t => (detect_emotions nrc t).length
          + if (detect_emotions nrc t).isEmpty then 1 else 0) := by
    refine List.map_congr_left fun t ht => ?_
    have h := row_tokens_eq nrc t (hname t ht)
    by_cases hd : detect_emotions nrc t = []
    · rw [if_pos hd] at h
      simp [Function.comp, h, hd]
      rfl
    · rw [if_neg hd] at h
      simp [Function.comp, h, hd, List.isEmpty_iff]
  rw [hcong, sum_map_add_nat]
  congr 1
  · rw [List.length_flatten, List.map_map]
    rfl
  · rw [sum_indicator_eq_length_filter]

/-- Witness for C2 on a two-row dataset: one row with one emotion tag, one
row with none; the counts sum to `1 + 1`. -/
theorem emotion_counts_sum_witness :
    (∀ t ∈ (["joyful", "blank"] : List String), ∀ p ∈ nrcDemo t, p.1 ≠ [] ∧ ',' ∉ p.1) ∧
    ((analyse_dataframe (fun _ => 0) nrcDemo ["joyful", "blank"]).2.map Prod.snd).sum
      = ((["joyful", "blank"] : List String).map
          (fun t => detect_emotions nrcDemo t)).flatten.length
        + ((["joyful", "blank"] : List String).filter
            (fun t => (detect_emotions nrcDemo t).isEmpty)).length :=
  ⟨by decide, emotion_counts_sum (fun _ => 0) nrcDemo ["joyful", "blank"] (by decide)⟩

/-! ## C10: the empty string as an emotion category -/

/-- **C10.** When at least one row has zero detected emotions, the emotion
frequency returned by `analyse_dataframe` contains the empty string as a
category whose count is the number of such rows: splitting a row's empty
joined-emotion string yields an empty-string token that is counted rather
than discarded. -/
theorem emotion_counts_empty_token (sia : String → ℚ)
    (nrc : String → List (Emotion × Nat)) (df : List String)
    (hname : ∀ t ∈ df, ∀ p ∈ nrc t, p.1 ≠ [] ∧ ',' ∉ p.1)
    (hrow : ∃ t ∈ df, detect_emotions nrc t = []) :
    (([] : Emotion), (df.filter (fun t => (detect_emotions nrc t).isEmpty)).length)
      ∈ (analyse_dataframe sia nrc df).2 := by
  rw [analyse_tokens_eq sia nrc df, ← count_empty_tokens nrc df hname]
  apply mem_valueCounts
  rcases hrow with ⟨t₀, ht₀, hdet⟩
  refine List.mem_flatten.2
    ⟨splitComma (joinComma (detect_emotions nrc t₀)), List.mem_map.2 ⟨t₀, ht₀, rfl⟩, ?_⟩
  rw [row_tokens_eq nrc t₀ (hname t₀ ht₀), if_pos hdet]
  exact List.mem_cons_self _ _

/-- Witness for C10: the row `"blank"` has no emotions, and the empty
category appears with count `1`. -/
theorem emotion_counts_empty_token_witness :
    (∀ t ∈ (["joyful", "blank"] : List String), ∀ p ∈ nrcDemo t, p.1 ≠ [] ∧ ',' ∉ p.1) ∧
    (([] : Emotion), ((["joyful", "blank"] : List String).filter
        (fun t => (detect_emotions nrcDemo t).isEmpty)).length)
      ∈ (analyse_dataframe (fun _ => 0) nrcDemo ["joyful", "blank"]).2 :=
  ⟨by decide,
   emotion_counts_empty_token (fun _ => 0) nrcDemo ["joyful", "blank"] (by decide)
     ⟨"blank", by decide, by decide⟩⟩

end Sentiment
